import Mathlib

/-!
Verification of the eino-ext LangSmith trace-callback core.

The Go sources are shallowly embedded: contexts become immutable records,
goroutines become explicitly returned background-task results, sink calls
become an event list, and the wall clock / uuid generator / JSON marshaller
become explicit parameters.  The repository ships two revisions of
`langsmith.go` and three revisions of the `FlowTrace` span API; where the
revisions differ in behaviour both are embedded, with the provenance of each
definition recorded in its doc comment.
-/
namespace EinoLangsmith
/-- Trace options carried by the context (src/callbacks/langsmith/trace.go,
`traceOptions`).  Metadata values are opaque to the claims and are modelled
as strings. -/
structure TraceOptions where
  sessionName : String := ""
  referenceExampleID : String := ""
  traceID : String := ""
  metadata : List (String × String) := []
  parentID : String := ""
  parentDottedOrder : String := ""
  deriving Repr, DecidableEq
/-- Trace state descending through the call tree
(src/callbacks/langsmith/langsmith.go:49-53, `LangsmithState`). -/
structure LangsmithState where
  traceID : String := ""
  parentRunID : String := ""
  parentDottedOrder : String := ""
  deriving Repr, DecidableEq
/-- A wall-clock instant as Go's `time.Time` exposes it to the code under
scrutiny: calendar fields down to microseconds (UTC). -/
structure GoTime where
  year : Nat := 0
  month : Nat := 0
  day : Nat := 0
  hour : Nat := 0
  minute : Nat := 0
  second : Nat := 0
  micro : Nat := 0
  deriving Repr, DecidableEq
/-- Chronological comparison of two instants (lexicographic on the calendar
fields down to microseconds). -/
def GoTime.key (t : GoTime) : List Nat :=
  [t.year, t.month, t.day, t.hour, t.minute, t.second, t.micro]
/-- Boolean strict "starts before" on instants. -/
def GoTime.before (a b : GoTime) : Bool := decide (a.key < b.key)
/-- Zero-padded fixed-width decimal, as Go's reference-layout digit fields
print (`2006`, `01`, ..., `05`). -/
def padZeros (w n : Nat) : String :=
  let s := toString n
  String.mk (List.replicate (w - s.length) '0') ++ s
/-- Embedding of `run.StartTime.Format("20060102T150405000000")`
(src/callbacks/langsmith/langsmith.go:93, 194, 432, 566;
flow_trace.go:48; src/unnamed/part_000:52).

Go layout semantics: `2006` year, `01` month, `02` day, literal `T`,
`15` hour, `04` minute, `05` second.  The trailing `000000` is NOT a
fractional-second directive: in Go, fractional seconds in a layout must be
introduced by a dot or comma (as in `.000000`); a bare run of zeros after
`05` is a literal string of six `0` characters.  The formatted timestamp
therefore has second resolution, and every timestamp ends in the constant
text `000000`. -/
def formatTimestamp (t : GoTime) : String :=
  padZeros 4 t.year ++ padZeros 2 t.month ++ padZeros 2 t.day ++ "T" ++
    padZeros 2 t.hour ++ padZeros 2 t.minute ++ padZeros 2 t.second ++ "000000"
/-- A run record as sent to the sink (src/callbacks/langsmith/client.go:52-67).
Maps with opaque values are modelled as association lists of strings. -/
structure Run where
  id : String := ""
  name : String := ""
  runType : String := ""
  startTime : GoTime := {}
  inputs : List (String × String) := []
  parentRunID : Option String := none
  traceID : String := ""
  extra : List (String × String) := []
  sessionName : String := ""
  referenceExampleID : Option String := none
  dottedOrder : String := ""
  deriving Repr, DecidableEq
/-- An update patch (src/callbacks/langsmith/client.go:70-79). -/
structure RunPatch where
  endTime : Option GoTime := none
  outputs : List (String × String) := []
  error : Option String := none
  extra : List (String × String) := []
  deriving Repr, DecidableEq
/-- One attempted call on the abstract `Langsmith` sink
(src/callbacks/langsmith/client.go:30-33). -/
inductive SinkEvent where
  | createRun (run : Run)
  | updateRun (runID : String) (patch : RunPatch)
  deriving Repr, DecidableEq
/-- The run records among a list of attempted sink calls. -/
def createdRuns (evs : List SinkEvent) : List Run :=
  evs.filterMap (fun e => match e with
    | .createRun r => some r
    | .updateRun _ _ => none)
/-- The context as the handler sees it: the two private keys
(`langsmithTraceOptionKey`, `langsmithStateKey`) of Go's immutable
`context.Context` carrier.  `context.WithValue` derives a copy. -/
structure Ctx where
  opts : Option TraceOptions := none
  state : Option LangsmithState := none
  deriving Repr, DecidableEq
/-- The span descriptor.  Modelled from the spec: the helpers
`runInfoToName` / `runInfoToRunType` (in the repository but not under src/)
read a name and a kind tag off the `callbacks.RunInfo` descriptor (spec §6:
"at minimum a name, a kind tag"). -/
structure RunInfo where
  name : String := ""
  runType : String := ""
  deriving Repr, DecidableEq
/-- Embedding of `getOrInitState`
(src/callbacks/langsmith/langsmith.go:374-394): return the state already in
the context, or synthesize the initial state from any trace options
present and publish it. -/
def getOrInitState (ctx : Ctx) : Ctx × LangsmithState :=
  match ctx.state with
  | some st => (ctx, st)
  | none =>
    let opts := ctx.opts.getD {}
    let st : LangsmithState :=
      { traceID := opts.traceID
        parentRunID := opts.parentID
        parentDottedOrder := opts.parentDottedOrder }
    ({ ctx with state := some st }, st)
/-- Spec-side definition, written from the spec's words (§4.1):
`ComposeDottedOrder(parentOrder, t, runID)` returns
`parentOrder + "." + FormatTimestamp(t) + "Z" + runID` when `parentOrder`
is non-empty, else `FormatTimestamp(t) + "Z" + runID`. -/
def ComposeDottedOrder (parentOrder : String) (t : GoTime) (runID : String) : String :=
  if parentOrder ≠ "" then parentOrder ++ "." ++ formatTimestamp t ++ "Z" ++ runID
  else formatTimestamp t ++ "Z" ++ runID
/-- Embedding of `CallbackHandler.OnStart`
(src/callbacks/langsmith/langsmith.go:57-111).

Explicit parameters stand for the code's effects: `marshal` for
`sonic.MarshalString`, `now` for `time.Now().UTC()`, `runID` for
`uuid.New().String()`, and `createErr` for the sink's response to
`CreateRun` (the Go only logs it, so the result cannot depend on it).
The returned event list holds the attempted sink calls. -/
def onStart (marshal : String → Except String String) (now : GoTime) (runID : String)
    (createErr : Option String) (ctx : Ctx) (info : Option RunInfo) (input : String) :
    Ctx × List SinkEvent :=
  match info with
  | none => (ctx, [])
  | some info =>
    let ctxState := getOrInitState ctx
    let ctx := ctxState.1
    let state := ctxState.2
    let opts := ctx.opts.getD {}
    match marshal input with
    | .error _ => (ctx, [])
    | .ok inStr =>
      let state := if state.traceID = "" then { state with traceID := runID } else state
      let run : Run :=
        { id := runID
          traceID := state.traceID
          name := info.name
          runType := info.runType
          startTime := now
          inputs := [("input", inStr)]
          sessionName := opts.sessionName
          extra := opts.metadata
          referenceExampleID :=
            if opts.referenceExampleID ≠ "" then some opts.referenceExampleID else none
          parentRunID := if state.parentRunID ≠ "" then some state.parentRunID else none
          dottedOrder :=
            if state.parentDottedOrder ≠ "" then
              state.parentDottedOrder ++ "." ++ formatTimestamp now ++ "Z" ++ runID
            else formatTimestamp now ++ "Z" ++ runID }
      let newState : LangsmithState :=
        { traceID := state.traceID
          parentRunID := runID
          parentDottedOrder := run.dottedOrder }
      ({ ctx with state := some newState }, [SinkEvent.createRun run])
/-- Embedding of `CallbackHandler.OnEnd`
(src/callbacks/langsmith/langsmith.go:113-139). -/
def onEnd (marshal : String → Except String String) (now : GoTime)
    (ctx : Ctx) (info : Option RunInfo) (output : String) : Ctx × List SinkEvent :=
  match info with
  | none => (ctx, [])
  | some _ =>
    match ctx.state with
    | none => (ctx, [])
    | some state =>
      match marshal output with
      | .error _ => (ctx, [])
      | .ok outStr =>
        (ctx, [SinkEvent.updateRun state.parentRunID
          { endTime := some now, outputs := [("output", outStr)] }])
/-- Embedding of `CallbackHandler.OnError`
(src/callbacks/langsmith/langsmith.go:141-163). -/
def onError (now : GoTime) (ctx : Ctx) (info : Option RunInfo) (err : String) :
    Ctx × List SinkEvent :=
  match info with
  | none => (ctx, [])
  | some _ =>
    match ctx.state with
    | none => (ctx, [])
    | some state =>
      (ctx, [SinkEvent.updateRun state.parentRunID
        { endTime := some now, error := some err }])
namespace FlowTrace
/-- Embedding of `FlowTrace.StartSpan`
(src/callbacks/langsmith/flow_trace.go:21-65, the revision taking a
`spanType`).  On a sink failure the Go returns `nil, "", err`; the
`Except.error` branch models that.  The event list records the attempted
`CreateRun` call. -/
def StartSpan (runID : String) (now : GoTime) (createErr : Option String)
    (ctx : Ctx) (name spanType : String) (state? : Option LangsmithState) :
    List SinkEvent × Except String (Ctx × String) :=
  let opts := ctx.opts.getD {}
  let state := state?.getD {}
  let state := if state.traceID = "" then { state with traceID := runID } else state
  let run : Run :=
    { id := runID
      traceID := state.traceID
      name := name
      runType := spanType
      startTime := now
      sessionName := opts.sessionName
      extra := opts.metadata
      referenceExampleID :=
        if opts.referenceExampleID ≠ "" then some opts.referenceExampleID else none
      parentRunID := if state.parentRunID ≠ "" then some state.parentRunID else none
      dottedOrder :=
        if state.parentDottedOrder ≠ "" then
          state.parentDottedOrder ++ "." ++ formatTimestamp now ++ "Z" ++ runID
        else formatTimestamp now ++ "Z" ++ runID }
  match createErr with
  | some e => ([SinkEvent.createRun run], .error e)
  | none =>
    let newState : LangsmithState :=
      { traceID := state.traceID
        parentRunID := runID
        parentDottedOrder := run.dottedOrder }
    ([SinkEvent.createRun run], .ok ({ ctx with state := some newState }, runID))
/-- Embedding of `FlowTrace.StartSpan`, the `RunIDGen` revision
(src/unnamed/part_000:28-69): no span-type parameter (the run type is the
`chain` constant), and — unlike every other span-start in the repository —
no initialisation of an empty trace id: `TraceID: state.TraceID` is copied
verbatim even when empty. -/
def StartSpanV2 (runID : String) (now : GoTime) (createErr : Option String)
    (ctx : Ctx) (name : String) (state? : Option LangsmithState) :
    List SinkEvent × Except String (Ctx × String) :=
  let opts := ctx.opts.getD {}
  let state := state?.getD {}
  let run : Run :=
    { id := runID
      traceID := state.traceID
      name := name
      runType := "chain"
      startTime := now
      sessionName := opts.sessionName
      extra := opts.metadata
      referenceExampleID :=
        if opts.referenceExampleID ≠ "" then some opts.referenceExampleID else none
      parentRunID := if state.parentRunID ≠ "" then some state.parentRunID else none
      dottedOrder :=
        if state.parentDottedOrder ≠ "" then
          state.parentDottedOrder ++ "." ++ formatTimestamp now ++ "Z" ++ runID
        else formatTimestamp now ++ "Z" ++ runID }
  match createErr with
  | some e => ([SinkEvent.createRun run], .error e)
  | none =>
    let newState : LangsmithState :=
      { traceID := state.traceID
        parentRunID := runID
        parentDottedOrder := run.dottedOrder }
    ([SinkEvent.createRun run], .ok ({ ctx with state := some newState }, runID))
end FlowTrace
/-- One span-start request: descriptor, raw input, minted run id, start time. -/
structure StartStep where
  info : RunInfo := {}
  input : String := ""
  runID : String := ""
  time : GoTime := {}
  deriving Repr
/-- A call tree of nested span starts: each node starts a span via OnStart
and its children run in the context the span published. -/
inductive CallTree where
  | node (step : StartStep) (children : List CallTree)
mutual

/-- All runs created while executing a call tree under OnStart: the node's
own CreateRun attempts followed by those of its children, each child started
from the context the node returned. -/
def runTree (m : String → Except String String) (c : Ctx) : CallTree → List Run
  | .node s ts =>
    let r := onStart m s.time s.runID none c (some s.info) s.input
    createdRuns r.2 ++ runForest m r.1 ts

/-- Runs created by a list of sibling subtrees, all from the same context. -/
def runForest (m : String → Except String String) (c : Ctx) : List CallTree → List Run
  | [] => []
  | t :: ts => runTree m c t ++ runForest m c ts

end
/-- The exact trace state OnStart publishes for descendants, and the sink
traffic of the full start/end (or start/error) lifecycle, as one predicate:
the derived context carries the inherited-or-minted trace id, the minted run
id as parent run id, and the new run's dotted order; the start attempted
exactly one CreateRun bearing the minted id; and OnEnd (or OnError) on the
derived context attempts exactly one UpdateRun against that same id. -/
def publishesAndFinalizes (m mo : String → Except String String) (t t2 : GoTime)
    (rid : String) (ce : Option String) (c : Ctx) (i i2 : RunInfo)
    (inp out errS os : String) : Prop :=
  (onStart m t rid ce c (some i) inp).1.state = some
    { traceID := if (getOrInitState c).2.traceID = "" then rid
        else (getOrInitState c).2.traceID
      parentRunID := rid
      parentDottedOrder := ComposeDottedOrder (getOrInitState c).2.parentDottedOrder t rid } ∧
  (createdRuns (onStart m t rid ce c (some i) inp).2).map Run.id = [rid] ∧
  onEnd mo t2 (onStart m t rid ce c (some i) inp).1 (some i2) out =
    ((onStart m t rid ce c (some i) inp).1,
      [SinkEvent.updateRun rid { endTime := some t2, outputs := [("output", os)] }]) ∧
  onError t2 (onStart m t rid ce c (some i) inp).1 (some i2) errS =
    ((onStart m t rid ce c (some i) inp).1,
      [SinkEvent.updateRun rid { endTime := some t2, error := some errS }])
/-- Sink-failure policy per entry point: OnStart's result is bit-for-bit
independent of the CreateRun outcome and still hands the caller the derived
context with the new state, while both FlowTrace.StartSpan revisions abort,
returning the sink error and no context. -/
def sinkFailurePolicy (m : String → Except String String) (t : GoTime)
    (rid e : String) (c : Ctx) (i : RunInfo) (inp nm ty : String)
    (st? : Option LangsmithState) : Prop :=
  onStart m t rid (some e) c (some i) inp = onStart m t rid none c (some i) inp ∧
  (onStart m t rid (some e) c (some i) inp).1.state = some
    { traceID := if (getOrInitState c).2.traceID = "" then rid
        else (getOrInitState c).2.traceID
      parentRunID := rid
      parentDottedOrder := ComposeDottedOrder (getOrInitState c).2.parentDottedOrder t rid } ∧
  (FlowTrace.StartSpan rid t (some e) c nm ty st?).2 = .error e ∧
  (FlowTrace.StartSpanV2 rid t (some e) c nm st?).2 = .error e
/-- Encoding-failure policy: on a marshal error the span start returns the
context (with only the lazily initialised inherited state) and attempts no
sink call, and the span end returns the context unchanged and attempts no
sink call; neither propagates the failure. -/
def marshalFailurePolicy (m mo : String → Except String String) (t : GoTime)
    (rid : String) (ce : Option String) (c : Ctx) (i : RunInfo)
    (inp out : String) : Prop :=
  onStart m t rid ce c (some i) inp = ((getOrInitState c).1, []) ∧
  onEnd mo t c (some i) out = (c, [])
/-- A streaming input as the Recv loop observes it: the chunks delivered
before the terminal event, and the terminal itself — `none` for a clean
`io.EOF`, `some e` for a receive error.  In the Go loop
(src/callbacks/langsmith/langsmith.go:210-221) a non-EOF error only logs and
leaves the loop, exactly as EOF does, so the collected inputs are the chunks
before the terminal in both cases. -/
structure StreamInput where
  chunks : List String := []
  terminal : Option String := none
  deriving Repr, DecidableEq
/-- What the background goroutine of a streaming span start does by the time
it finishes: the CreateRun attempts it made, and whether the deferred
recover/Close released the stream (it does on every exit path). -/
structure BgResult where
  creates : List Run := []
  closed : Bool := false
  deriving Repr, DecidableEq
/-- Embedding of `CallbackHandler.OnStartWithStreamInput`, current revision
(src/callbacks/langsmith/langsmith.go:166-255).  The run skeleton, its start
time and its dotted order are computed synchronously and the new state is
published before the goroutine result matters; the goroutine drains the
stream, aggregates the chunks via `extractModelInput` ∘
`convModelCallbackInput` — functions of this repository not under src/,
modelled from the spec (§4.4) as an `extract` parameter aggregating the
drained chunks into one logical input payload or failing with an encoding
error; the model-configuration / extra-metadata side outputs of the real
extractor are outside every claim and are not carried — and attempts exactly
one CreateRun on success, none on extraction failure. -/
def onStartWithStreamInput (extract : List String → Except String String)
    (now : GoTime) (rid : String) (ctx : Ctx) (info : Option RunInfo)
    (input : StreamInput) : Ctx × BgResult :=
  match info with
  | none => (ctx, { creates := [], closed := true })
  | some info =>
    let ctxState := getOrInitState ctx
    let ctx := ctxState.1
    let state := ctxState.2
    let opts := ctx.opts.getD {}
    let state := if state.traceID = "" then { state with traceID := rid } else state
    let dotted :=
      if state.parentDottedOrder ≠ "" then
        state.parentDottedOrder ++ "." ++ formatTimestamp now ++ "Z" ++ rid
      else formatTimestamp now ++ "Z" ++ rid
    let bg : BgResult :=
      match extract input.chunks with
      | .error _ => { creates := [], closed := true }
      | .ok inMessage =>
        { creates := [{ id := rid
                        traceID := state.traceID
                        name := info.name
                        runType := info.runType
                        startTime := now
                        inputs := [("stream_inputs", inMessage)]
                        sessionName := opts.sessionName
                        referenceExampleID :=
                          if opts.referenceExampleID ≠ "" then
                            some opts.referenceExampleID
                          else none
                        parentRunID :=
                          if state.parentRunID ≠ "" then some state.parentRunID else none
                        dottedOrder := dotted }]
          closed := true }
    let newState : LangsmithState :=
      { traceID := state.traceID
        parentRunID := rid
        parentDottedOrder := dotted }
    ({ ctx with state := some newState }, bg)
/-- Embedding of `CallbackHandler.OnStartWithStreamInput`, legacy revision
(src/callbacks/langsmith/langsmith.go:505-585).  Here the run, its start
time (`nowBg`, taken inside the goroutine) and its dotted order are computed
inside the background goroutine, which assigns the captured local
`parentDottedOrder` only then; the new state is built and published at
return, when that local still holds the Go zero value `""` (the unsynchronized
goroutine write races with — and under run-to-completion-of-the-caller
semantics follows — the publication). -/
def onStartWithStreamInputLegacy (extract : List String → Except String String)
    (now nowBg : GoTime) (rid : String) (ctx : Ctx) (info : Option RunInfo)
    (input : StreamInput) : Ctx × BgResult :=
  match info with
  | none => (ctx, { creates := [], closed := true })
  | some info =>
    let ctxState := getOrInitState ctx
    let ctx := ctxState.1
    let state := ctxState.2
    let opts := ctx.opts.getD {}
    let state := if state.traceID = "" then { state with traceID := rid } else state
    let bg : BgResult :=
      match extract input.chunks with
      | .error _ => { creates := [], closed := true }
      | .ok inMessage =>
        let dotted :=
          if state.parentDottedOrder ≠ "" then
            state.parentDottedOrder ++ "." ++ formatTimestamp nowBg ++ "Z" ++ rid
          else formatTimestamp nowBg ++ "Z" ++ rid
        { creates := [{ id := rid
                        traceID := state.traceID
                        name := info.name
                        runType := info.runType
                        startTime := nowBg
                        inputs := [("stream_inputs", inMessage)]
                        sessionName := opts.sessionName
                        referenceExampleID :=
                          if opts.referenceExampleID ≠ "" then
                            some opts.referenceExampleID
                          else none
                        parentRunID :=
                          if state.parentRunID ≠ "" then some state.parentRunID else none
                        dottedOrder := dotted }]
          closed := true }
    let newState : LangsmithState :=
      { traceID := state.traceID
        parentRunID := rid
        parentDottedOrder := "" }
    ({ ctx with state := some newState }, bg)
/-- Lowercase hexadecimal digit, as Go's JSON encoder prints in numeric
escapes. -/
def hexDigitChar (n : Nat) : Char :=
  if n < 10 then Char.ofNat (48 + n) else Char.ofNat (97 + (n - 10))
/-- Value of a hexadecimal digit character, as a JSON decoder reads inside a
numeric escape. -/
def hexVal (c : Char) : Option Nat :=
  if '0' ≤ c ∧ c ≤ '9' then some (c.toNat - 48)
  else if 'a' ≤ c ∧ c ≤ 'f' then some (c.toNat - 87)
  else if 'A' ≤ c ∧ c ≤ 'F' then some (c.toNat - 55)
  else none
/-- JSON string escaping of one character, following the Go JSON encoder
(sonic in its default, non-HTML-escaping configuration): quote, backslash,
the named control escapes, numeric escapes for remaining control characters
and for the line/paragraph separators U+2028 / U+2029, everything else
verbatim. -/
def escapeChar (c : Char) : List Char :=
  if c = '"' then ['\\', '"']
  else if c = '\\' then ['\\', '\\']
  else if c = '\n' then ['\\', 'n']
  else if c = '\r' then ['\\', 'r']
  else if c = '\t' then ['\\', 't']
  else if c.toNat < 32 then
    ['\\', 'u', '0', '0', hexDigitChar (c.toNat / 16), hexDigitChar (c.toNat % 16)]
  else if c.toNat = 8232 ∨ c.toNat = 8233 then
    ['\\', 'u', '2', '0', '2', hexDigitChar (c.toNat % 16)]
  else [c]
/-- JSON string escaping of a character sequence. -/
def escapeString : List Char → List Char
  | [] => []
  | c :: cs => escapeChar c ++ escapeString cs
/-- Prepend a decoded character to the result of reading the rest of a JSON
string. -/
def pushChar (c : Char) : Option (List Char × List Char) → Option (List Char × List Char)
  | some (s, r) => some (c :: s, r)
  | none => none
/-- Read a JSON string body (the opening quote already consumed) up to its
closing quote: handles the named escapes, `\u` numeric escapes, rejects raw
control characters, and returns the decoded text with the remaining input. -/
def readJString : List Char → Option (List Char × List Char)
  | [] => none
  | c :: rest =>
    if c = '"' then some ([], rest)
    else if c = '\\' then
      match rest with
      | [] => none
      | e :: rest2 =>
        if e = '"' then pushChar '"' (readJString rest2)
        else if e = '\\' then pushChar '\\' (readJString rest2)
        else if e = '/' then pushChar '/' (readJString rest2)
        else if e = 'n' then pushChar '\n' (readJString rest2)
        else if e = 'r' then pushChar '\r' (readJString rest2)
        else if e = 't' then pushChar '\t' (readJString rest2)
        else if e = 'b' then pushChar (Char.ofNat 8) (readJString rest2)
        else if e = 'f' then pushChar (Char.ofNat 12) (readJString rest2)
        else if e = 'u' then
          match rest2 with
          | h1 :: h2 :: h3 :: h4 :: rest3 =>
            match hexVal h1, hexVal h2, hexVal h3, hexVal h4 with
            | some a, some b, some c2, some d =>
              pushChar (Char.ofNat (((a * 16 + b) * 16 + c2) * 16 + d)) (readJString rest3)
            | _, _, _, _ => none
          | _ => none
        else none
    else if c.toNat < 32 then none
    else pushChar c (readJString rest)
/-- Skip JSON insignificant whitespace. -/
def skipWs : List Char → List Char
  | [] => []
  | c :: rest =>
    if c = ' ' ∨ c = '\t' ∨ c = '\n' ∨ c = '\r' then skipWs rest else c :: rest
/-- Assign a decoded string member to the matching `LangsmithState` field by
its JSON tag (src/callbacks/langsmith/langsmith.go:50-52); unknown keys are
ignored as Go's decoder does. -/
def setField (st : LangsmithState) (key v : List Char) : LangsmithState :=
  if key = "trace_id".data then { st with traceID := String.mk v }
  else if key = "parent_run_id".data then { st with parentRunID := String.mk v }
  else if key = "parent_dotted_order".data then { st with parentDottedOrder := String.mk v }
  else st
/-- Parse the members of a JSON object whose values are strings — the only
value shape `LangsmithState` can produce — assigning fields by key until the
closing brace; the fuel argument bounds the member count by the input
length.  Models `sonic.Unmarshal` restricted to the object-of-strings
documents relevant to `LangsmithState`. -/
def parseMembers : Nat → LangsmithState → List Char → Option LangsmithState
  | 0, _, _ => none
  | fuel + 1, st, l =>
    match skipWs l with
    | q :: rest =>
      if q = '"' then
        match readJString rest with
        | some (key, rest2) =>
          match skipWs rest2 with
          | colon :: rest3 =>
            if colon = ':' then
              match skipWs rest3 with
              | q2 :: rest4 =>
                if q2 = '"' then
                  match readJString rest4 with
                  | some (v, rest5) =>
                    let st2 := setField st key v
                    match skipWs rest5 with
                    | sep :: rest6 =>
                      if sep = ',' then parseMembers fuel st2 rest6
                      else if sep = '\x7d' then
                        (if skipWs rest6 = [] then some st2 else none)
                      else none
                    | [] => none
                  | none => none
                else none
              | [] => none
            else none
          | [] => none
        | none => none
      else none
    | [] => none
/-- The JSON text `sonic.Marshal` produces for a `LangsmithState`: an object
with the three members in struct order under their tags `trace_id`,
`parent_run_id`, `parent_dotted_order`, each value an escaped string. -/
def marshalStateChars (st : LangsmithState) : List Char :=
  '\x7b' :: '"' :: ("trace_id".data ++ ('"' :: ':' :: '"' ::
    (escapeString st.traceID.data ++ ('"' :: ',' :: '"' ::
    ("parent_run_id".data ++ ('"' :: ':' :: '"' ::
    (escapeString st.parentRunID.data ++ ('"' :: ',' :: '"' ::
    ("parent_dotted_order".data ++ ('"' :: ':' :: '"' ::
    (escapeString st.parentDottedOrder.data ++ ['"', '\x7d'])))))))))))
/-- `sonic.Marshal` of a `LangsmithState`: total, since marshalling a struct
of three strings cannot fail, so the Go error branch is dead. -/
def marshalState (st : LangsmithState) : String := String.mk (marshalStateChars st)
/-- `sonic.Unmarshal` into a `LangsmithState`: whole-document parse of an
object, with trailing whitespace only. -/
def unmarshalState (val : String) : Option LangsmithState :=
  match skipWs val.data with
  | c :: rest =>
    if c = '\x7b' then
      match skipWs rest with
      | d :: rest2 =>
        if d = '\x7d' then (if skipWs rest2 = [] then some {} else none)
        else parseMembers (rest.length + 1) {} rest
      | [] => none
    else none
  | [] => none
/-- Modelled from the spec: `GetState(ctx) -> state|absent` (§4.2) — the
accessor is code of this repository not under src/ (only its callers in
`SpanToString` are); it reads the trace state off the context's private key
without modifying the context. -/
def GetState (ctx : Ctx) : Ctx × Option LangsmithState := (ctx, ctx.state)
/-- Embedding of `FlowTrace.SpanToString`
(src/callbacks/langsmith/flow_trace.go:79-89; src/unnamed/part_000:84-94):
empty string when the context carries no state, else the marshalled state
(whose marshalling cannot fail for a struct of strings, so the error branch
is dead and the result is total). -/
def SpanToString (ctx : Ctx) : String :=
  match (GetState ctx).2 with
  | none => ""
  | some st => marshalState st
/-- Embedding of `FlowTrace.StringToSpan`
(src/callbacks/langsmith/flow_trace.go:91-98; src/unnamed/part_000:97-104):
the empty string yields absent state and no error; otherwise the string is
unmarshalled into a fresh state, returned together with the unmarshal error
if any (the Go returns the zero-value state alongside the error). -/
def StringToSpan (val : String) : Option LangsmithState × Option String :=
  if val = "" then (none, none)
  else
    match unmarshalState val with
    | some st => (some st, none)
    | none => (some {}, some "unmarshal error")
/-- Unfolding equation for `onStart` on a present descriptor, phrased through
`getOrInitState` so proofs need not case on the context shape. -/
theorem onStart_some_eq (m : String → Except String String) (t : GoTime)
    (rid : String) (ce : Option String) (c : Ctx) (i : RunInfo) (inp : String) :
    onStart m t rid ce c (some i) inp =
      (match m inp with
        | .error _ => ((getOrInitState c).1, [])
        | .ok inStr =>
          let opts := (getOrInitState c).1.opts.getD {}
          let state := if (getOrInitState c).2.traceID = "" then
              { (getOrInitState c).2 with traceID := rid }
            else (getOrInitState c).2
          let run : Run :=
            { id := rid
              traceID := state.traceID
              name := i.name
              runType := i.runType
              startTime := t
              inputs := [("input", inStr)]
              sessionName := opts.sessionName
              extra := opts.metadata
              referenceExampleID :=
                if opts.referenceExampleID ≠ "" then some opts.referenceExampleID else none
              parentRunID := if state.parentRunID ≠ "" then some state.parentRunID else none
              dottedOrder :=
                if state.parentDottedOrder ≠ "" then
                  state.parentDottedOrder ++ "." ++ formatTimestamp t ++ "Z" ++ rid
                else formatTimestamp t ++ "Z" ++ rid }
          ({ (getOrInitState c).1 with
              state := some { traceID := state.traceID
                              parentRunID := rid
                              parentDottedOrder := run.dottedOrder } },
            [SinkEvent.createRun run])) := rfl
/-- The state held by the first component of `getOrInitState` is exactly its
second component. -/
theorem getOrInitState_fst_state (c : Ctx) :
    (getOrInitState c).1.state = some (getOrInitState c).2 := by
  rcases hc : c.state with _ | st <;> simp [getOrInitState, hc]
/-- A context that already carries a state is returned by `getOrInitState`
unchanged, together with that state. -/
theorem getOrInitState_of_state_some (c : Ctx) (st : LangsmithState)
    (h : c.state = some st) : getOrInitState c = (c, st) := by
  simp [getOrInitState, h]
/-- The context OnStart returns when the input marshals: it carries exactly
the new state built from the inherited-or-minted trace id, the minted run id
and the composed dotted order. -/
theorem onStart_fst_state (m : String → Except String String) (t : GoTime)
    (rid : String) (ce : Option String) (c : Ctx) (i : RunInfo) (inp sv : String)
    (h : m inp = .ok sv) :
    (onStart m t rid ce c (some i) inp).1.state = some
      { traceID := if (getOrInitState c).2.traceID = "" then rid
          else (getOrInitState c).2.traceID
        parentRunID := rid
        parentDottedOrder :=
          ComposeDottedOrder (getOrInitState c).2.parentDottedOrder t rid } := by
  rw [onStart_some_eq]
  simp only [h]
  by_cases hT : (getOrInitState c).2.traceID = "" <;>
    simp [hT, ComposeDottedOrder]
/-- A span started from a context whose entry trace state carries a
non-empty trace id gives its run that same trace id. -/
theorem onStart_run_traceID (m : String → Except String String) (t : GoTime)
    (rid : String) (ce : Option String) (c : Ctx) (i : RunInfo) (inp : String)
    (hT : (getOrInitState c).2.traceID ≠ "") :
    ∀ r ∈ createdRuns (onStart m t rid ce c (some i) inp).2,
      r.traceID = (getOrInitState c).2.traceID := by
  rw [onStart_some_eq]
  rcases hm : m inp with e | s <;> simp [hm, createdRuns, hT]
/-- A span started from a context whose entry trace state carries a
non-empty trace id hands its children a context with that same trace id. -/
theorem onStart_ctx_traceID (m : String → Except String String) (t : GoTime)
    (rid : String) (ce : Option String) (c : Ctx) (i : RunInfo) (inp : String)
    (hT : (getOrInitState c).2.traceID ≠ "") :
    (getOrInitState (onStart m t rid ce c (some i) inp).1).2.traceID =
      (getOrInitState c).2.traceID := by
  rcases hm : m inp with e | s
  · have hc : (onStart m t rid ce c (some i) inp).1 = (getOrInitState c).1 := by
      rw [onStart_some_eq]
      simp [hm]
    rw [hc, getOrInitState_of_state_some _ _ (getOrInitState_fst_state c)]
  · rw [getOrInitState_of_state_some _ _ (onStart_fst_state m t rid ce c i inp s hm)]
    simp [hT]
mutual

/-- Trace-id inheritance, tree form: once the entry state carries a
non-empty trace id, every run in the subtree carries it. -/
theorem runTree_traceID (m : String → Except String String) (T : String)
    (hT : T ≠ "") :
    ∀ (c : Ctx), (getOrInitState c).2.traceID = T →
      ∀ (t : CallTree), ∀ r ∈ runTree m c t, r.traceID = T
  | c, hc, .node s ts, r, hr => by
    rw [runTree] at hr
    rcases List.mem_append.1 hr with h | h
    · have := onStart_run_traceID m s.time s.runID none c s.info s.input
        (by rw [hc]; exact hT) r h
      rw [this, hc]
    · exact runForest_traceID m T hT _
        (by rw [onStart_ctx_traceID m s.time s.runID none c s.info s.input
            (by rw [hc]; exact hT), hc]) ts r h

/-- Trace-id inheritance, forest form. -/
theorem runForest_traceID (m : String → Except String String) (T : String)
    (hT : T ≠ "") :
    ∀ (c : Ctx), (getOrInitState c).2.traceID = T →
      ∀ (ts : List CallTree), ∀ r ∈ runForest m c ts, r.traceID = T
  | c, hc, [], r, hr => by simp [runForest] at hr
  | c, hc, t :: ts, r, hr => by
    rw [runForest] at hr
    rcases List.mem_append.1 hr with h | h
    · exact runTree_traceID m T hT c hc t r h
    · exact runForest_traceID m T hT c hc ts r h

end
/-- C3 supporting invariant: in a call tree rooted at a span whose inherited
trace state has an empty trace id (the root case), OnStart mints the root's
run id as the trace id, and every run in the tree — the root's own and every
descendant's — carries exactly that id. -/
theorem runTree_root_traceID (m : String → Except String String) (c : Ctx)
    (s : StartStep) (ts : List CallTree) (sv : String)
    (hm : m s.input = .ok sv) (hrid : s.runID ≠ "")
    (h0 : (getOrInitState c).2.traceID = "") :
    ∀ r ∈ runTree m c (.node s ts), r.traceID = s.runID := by
  intro r hr
  rw [runTree] at hr
  rcases List.mem_append.1 hr with h | h
  · revert h
    rw [onStart_some_eq]
    simp only [hm]
    simp [createdRuns, h0]
    rintro rfl
    rfl
  · refine runForest_traceID m s.runID hrid _ ?_ ts r h
    rw [getOrInitState_of_state_some _ _
      (onStart_fst_state m s.time s.runID none c s.info s.input sv hm)]
    simp [h0]
/-- The synchronous result of the current streaming span start is
bit-for-bit independent of the stream contents and of the extractor: the new
trace state (run id and dotted order) is published before the background
drain can contribute anything. -/
theorem streamInput_publish_independent
    (extract extract2 : List String → Except String String) (t : GoTime)
    (rid : String) (c : Ctx) (i : RunInfo) (input input2 : StreamInput) :
    (onStartWithStreamInput extract t rid c (some i) input).1 =
      (onStartWithStreamInput extract2 t rid c (some i) input2).1 := rfl
/-- Hex digits decode back to their values. -/
theorem hexVal_hexDigitChar : ∀ n < 16, hexVal (hexDigitChar n) = some n := by decide
/-- Reading a JSON string body inverts escaping: the decoded text is exactly
the original and the rest of the input is untouched. -/
theorem readJString_escape (s rest : List Char) :
    readJString (escapeString s ++ '"' :: rest) = some (s, rest) := by
  induction s with
  | nil =>
    rw [escapeString, List.nil_append, readJString.eq_def]
    simp
  | cons c cs ih =>
    rw [escapeString, List.append_assoc]
    by_cases h1 : c = '"'
    · subst h1
      rw [show escapeChar '"' = ['\\', '"'] from rfl, List.cons_append,
        List.cons_append, List.nil_append, readJString.eq_def]
      simp [pushChar, ih]
    · by_cases h2 : c = '\\'
      · subst h2
        rw [show escapeChar '\\' = ['\\', '\\'] from rfl, List.cons_append,
          List.cons_append, List.nil_append, readJString.eq_def]
        simp [pushChar, ih]
      · by_cases h3 : c = '\n'
        · subst h3
          rw [show escapeChar '\n' = ['\\', 'n'] from rfl, List.cons_append,
            List.cons_append, List.nil_append, readJString.eq_def]
          simp [pushChar, ih]
        · by_cases h4 : c = '\r'
          · subst h4
            rw [show escapeChar '\r' = ['\\', 'r'] from rfl, List.cons_append,
              List.cons_append, List.nil_append, readJString.eq_def]
            simp [pushChar, ih]
          · by_cases h5 : c = '\t'
            · subst h5
              rw [show escapeChar '\t' = ['\\', 't'] from rfl, List.cons_append,
                List.cons_append, List.nil_append, readJString.eq_def]
              simp [pushChar, ih]
            · by_cases h6 : c.toNat < 32
              · have hd1 := hexVal_hexDigitChar (c.toNat / 16) (by omega)
                have hd2 := hexVal_hexDigitChar (c.toNat % 16) (by omega)
                have hech : escapeChar c = ['\\', 'u', '0', '0',
                    hexDigitChar (c.toNat / 16), hexDigitChar (c.toNat % 16)] := by
                  simp [escapeChar, h1, h2, h3, h4, h5, h6]
                rw [hech]
                simp only [List.cons_append, List.nil_append]
                rw [readJString.eq_def]
                simp only [reduceIte, reduceCtorEq]
                rw [show hexVal '0' = some 0 from by decide, hd1, hd2]
                simp only []
                have hch : Char.ofNat (((0 * 16 + 0) * 16 + c.toNat / 16) * 16
                    + c.toNat % 16) = c := by
                  rw [show ((0 * 16 + 0) * 16 + c.toNat / 16) * 16 + c.toNat % 16
                    = c.toNat from by omega, Char.ofNat_toNat]
                rw [hch, ih]
                rfl
              · by_cases h7 : c.toNat = 8232 ∨ c.toNat = 8233
                · have hd2 := hexVal_hexDigitChar (c.toNat % 16) (by omega)
                  have hech : escapeChar c = ['\\', 'u', '2', '0', '2',
                      hexDigitChar (c.toNat % 16)] := by
                    simp [escapeChar, h1, h2, h3, h4, h5, h6, h7]
                  rw [hech]
                  simp only [List.cons_append, List.nil_append]
                  rw [readJString.eq_def]
                  simp only [reduceIte, reduceCtorEq]
                  rw [show hexVal '2' = some 2 from by decide,
                    show hexVal '0' = some 0 from by decide, hd2]
                  simp only []
                  have hch : Char.ofNat (((2 * 16 + 0) * 16 + 2) * 16
                      + c.toNat % 16) = c := by
                    rw [show ((2 * 16 + 0) * 16 + 2) * 16 + c.toNat % 16
                      = c.toNat from by omega, Char.ofNat_toNat]
                  rw [hch, ih]
                  rfl
                · have hech : escapeChar c = [c] := by
                    simp [escapeChar, h1, h2, h3, h4, h5, h6, h7]
                  rw [hech, List.cons_append, List.nil_append, readJString.eq_def]
                  simp [h1, h2, h6, pushChar, ih]
/-- A key that escapes to itself reads back as itself. -/
theorem readJString_plain (k rest : List Char) (hk : escapeString k = k) :
    readJString (k ++ '"' :: rest) = some (k, rest) := by
  have h := readJString_escape k rest
  rwa [hk] at h
/-- Whitespace skipping leaves a non-whitespace head untouched. -/
theorem skipWs_not_ws (c : Char) (l : List Char)
    (h : ¬ (c = ' ' ∨ c = '\t' ∨ c = '\n' ∨ c = '\r')) :
    skipWs (c :: l) = c :: l := by
  simp [skipWs, h]
/-- One object member of the shape the encoder emits is consumed in one
step of `parseMembers`, assigning the field and handing the separator
handling back. -/
theorem parseMembers_one (f : Nat) (st : LangsmithState) (key v tail : List Char)
    (hkey : escapeString key = key) :
    parseMembers (f + 1) st
        ('"' :: (key ++ ('"' :: ':' :: '"' :: (escapeString v ++ ('"' :: tail))))) =
      (match skipWs tail with
        | sep :: rest =>
          if sep = ',' then parseMembers f (setField st key v) rest
          else if sep = '\x7d' then
            (if skipWs rest = [] then some (setField st key v) else none)
          else none
        | [] => none) := by
  have hk := readJString_plain key (':' :: '"' :: (escapeString v ++ ('"' :: tail))) hkey
  have hv := readJString_escape v tail
  simp only [parseMembers]
  simp [skipWs, hk, hv]
/-- The marshalled state is never the empty string (it starts with a
brace). -/
theorem marshalState_ne_empty (st : LangsmithState) : marshalState st ≠ "" := by
  intro h
  have hd := congrArg String.data h
  simp [marshalState, marshalStateChars] at hd
/-- The member list the encoder emits parses to exactly the encoded fields,
with two spare units of fuel consumed on the way. -/
theorem parseMembers_full (f : Nat) (st0 : LangsmithState) (s1 s2 s3 : List Char) :
    parseMembers (f + 2 + 1) st0
      ('"' :: ("trace_id".data ++ ('"' :: ':' :: '"' :: (escapeString s1 ++
       ('"' :: ',' :: '"' :: ("parent_run_id".data ++ ('"' :: ':' :: '"' ::
       (escapeString s2 ++ ('"' :: ',' :: '"' :: ("parent_dotted_order".data ++
       ('"' :: ':' :: '"' :: (escapeString s3 ++ ['"', '\x7d']))))))))))))
    = some { traceID := String.mk s1, parentRunID := String.mk s2,
             parentDottedOrder := String.mk s3 } := by
  have e1 : escapeString ("trace_id".data) = "trace_id".data := by decide
  have e2 : escapeString ("parent_run_id".data) = "parent_run_id".data := by decide
  have e3 : escapeString ("parent_dotted_order".data) = "parent_dotted_order".data := by
    decide
  rw [parseMembers_one (f + 2) st0 ("trace_id".data) s1 _ e1]
  rw [skipWs_not_ws _ _ (by decide)]
  simp only [reduceIte]
  rw [show f + 2 = f + 1 + 1 from rfl]
  rw [parseMembers_one (f + 1) _ ("parent_run_id".data) s2 _ e2]
  rw [skipWs_not_ws _ _ (by decide)]
  simp only [reduceIte]
  rw [parseMembers_one f _ ("parent_dotted_order".data) s3 _ e3]
  rw [skipWs_not_ws _ _ (by decide)]
  simp only [reduceIte, reduceCtorEq]
  simp [skipWs, setField]
/-- Unmarshalling inverts marshalling on every `LangsmithState`. -/
theorem unmarshal_marshal (st : LangsmithState) :
    unmarshalState (marshalState st) = some st := by
  obtain ⟨t1, t2, t3⟩ := st
  have data_mk : ∀ l : List Char, (String.mk l).data = l := fun _ => rfl
  simp only [unmarshalState, marshalState, data_mk, marshalStateChars]
  rw [skipWs_not_ws _ _ (by decide)]
  simp only [reduceIte]
  rw [skipWs_not_ws _ _ (by decide)]
  simp only [reduceIte, reduceCtorEq]
  have hf : (('"' :: ("trace_id".data ++ ('"' :: ':' :: '"' ::
      (escapeString t1.data ++ ('"' :: ',' :: '"' ::
      ("parent_run_id".data ++ ('"' :: ':' :: '"' ::
      (escapeString t2.data ++ ('"' :: ',' :: '"' ::
      ("parent_dotted_order".data ++ ('"' :: ':' :: '"' ::
      (escapeString t3.data ++ ['"', '\x7d'])))))))))))) : List Char).length + 1
      = (('"' :: ("trace_id".data ++ ('"' :: ':' :: '"' ::
      (escapeString t1.data ++ ('"' :: ',' :: '"' ::
      ("parent_run_id".data ++ ('"' :: ':' :: '"' ::
      (escapeString t2.data ++ ('"' :: ',' :: '"' ::
      ("parent_dotted_order".data ++ ('"' :: ':' :: '"' ::
      (escapeString t3.data ++ ['"', '\x7d'])))))))))))) : List Char).length - 2
        + 2 + 1 := by
    simp [List.length_append]
  rw [hf]
  exact parseMembers_full _ _ t1.data t2.data t3.data
/-- C1: every span-start operation (OnStart and both FlowTrace.StartSpan
revisions) gives the created run the dotted order
`parentOrder ++ "." ++ FormatTimestamp(t) ++ "Z" ++ runID` when the trace
state's parent dotted order is non-empty, and
`FormatTimestamp(t) ++ "Z" ++ runID` otherwise — i.e. exactly
`ComposeDottedOrder` of the entry state, timestamp and fresh run id.  The
composition in the embedding is a total function of the state, timestamp and
run id, so it is pure and deterministic with no error cases. -/
theorem dottedOrder_composition (m : String → Except String String) (t : GoTime)
    (rid : String) (ce : Option String) (c : Ctx) (i : RunInfo)
    (inp nm ty : String) (st? : Option LangsmithState) :
    ((createdRuns (onStart m t rid ce c (some i) inp).2).all
      (fun r => r.dottedOrder == ComposeDottedOrder (getOrInitState c).2.parentDottedOrder t rid)
      = true) ∧
    ((createdRuns (FlowTrace.StartSpan rid t ce c nm ty st?).1).all
      (fun r => r.dottedOrder == ComposeDottedOrder (st?.getD {}).parentDottedOrder t rid)
      = true) ∧
    ((createdRuns (FlowTrace.StartSpanV2 rid t ce c nm st?).1).all
      (fun r => r.dottedOrder == ComposeDottedOrder (st?.getD {}).parentDottedOrder t rid)
      = true) := by
  refine ⟨?_, ?_, ?_⟩
  · unfold onStart
    rcases hm : m inp with e | s
    · simp [createdRuns, hm]
    · simp only [hm]
      simp [createdRuns, ComposeDottedOrder]
      try (split <;> simp_all)
  · unfold FlowTrace.StartSpan
    rcases ce with _ | e <;>
      · simp [createdRuns, ComposeDottedOrder]
        try (split <;> simp_all)
  · unfold FlowTrace.StartSpanV2
    rcases ce with _ | e <;>
      · simp [createdRuns, ComposeDottedOrder]
        try (split <;> simp_all)
/-- C2 (code bug evaluation): two sibling spans started from the same parent
context within the same second, the first strictly before the second.
Because the Go layout string `20060102T150405000000` carries no
fractional-second directive (Go requires a dot or comma before the zeros),
both runs get the identical timestamp segment, and the dotted orders compare
by the random run ids: here the earlier span's dotted order is
lexicographically the larger, contradicting the claimed
start-order-implies-lexicographic-order law. -/
theorem dottedOrder_same_second_unsorted :
    GoTime.before ⟨2025, 10, 11, 12, 0, 0, 100⟩ ⟨2025, 10, 11, 12, 0, 0, 200⟩ = true ∧
    formatTimestamp ⟨2025, 10, 11, 12, 0, 0, 100⟩ =
      formatTimestamp ⟨2025, 10, 11, 12, 0, 0, 200⟩ ∧
    (createdRuns (onStart Except.ok ⟨2025, 10, 11, 12, 0, 0, 100⟩
        "ffffffff-ffff-4fff-bfff-ffffffffffff" none {} (some {}) "x").2).map Run.dottedOrder =
      ["20251011T120000000000Zffffffff-ffff-4fff-bfff-ffffffffffff"] ∧
    (createdRuns (onStart Except.ok ⟨2025, 10, 11, 12, 0, 0, 200⟩
        "00000000-0000-4000-8000-000000000000" none {} (some {}) "x").2).map Run.dottedOrder =
      ["20251011T120000000000Z00000000-0000-4000-8000-000000000000"] ∧
    ("20251011T120000000000Z00000000-0000-4000-8000-000000000000".data <
      "20251011T120000000000Zffffffff-ffff-4fff-bfff-ffffffffffff".data) ∧
    ¬ ("20251011T120000000000Zffffffff-ffff-4fff-bfff-ffffffffffff".data <
      "20251011T120000000000Z00000000-0000-4000-8000-000000000000".data) := by
  refine ⟨by decide, by decide, by decide, by decide, by decide, by decide⟩
/-- C3 (code bug evaluation): the RunIDGen revision of `FlowTrace.StartSpan`
(src/unnamed/part_000) never initialises an empty trace id.  Started at the
root (nil state) with minted run id `r1`, its run and its published state
carry the empty trace id rather than `r1`, while the sibling revision of
`StartSpan` (flow_trace.go) mints `r1` as the claim and §4.3 of the spec
require. -/
theorem flowStartSpanV2_root_traceID_empty :
    FlowTrace.StartSpanV2 "r1" ⟨2025, 1, 1, 0, 0, 0, 0⟩ none {} "flow" none =
      ([SinkEvent.createRun
          { id := "r1", name := "flow", runType := "chain",
            startTime := ⟨2025, 1, 1, 0, 0, 0, 0⟩, traceID := "",
            dottedOrder := "20250101T000000000000Zr1" }],
        .ok ({ state := some { traceID := "",
                               parentRunID := "r1",
                               parentDottedOrder := "20250101T000000000000Zr1" } },
             "r1")) ∧
    (createdRuns (FlowTrace.StartSpan "r1" ⟨2025, 1, 1, 0, 0, 0, 0⟩ none {}
        "flow" "chain" none).1).map Run.traceID = ["r1"] ∧
    ("" : String) ≠ "r1" := by
  refine ⟨by rfl, by decide, by decide⟩
/-- C4: when the input marshals, OnStart publishes into the derived context
exactly the state (trace id, parent run id = the minted run id, parent
dotted order = the new run's dotted order), attempts exactly one CreateRun
for the minted id, and OnEnd / OnError on that derived context attempt
exactly one UpdateRun against that same minted id. -/
theorem onStart_publish_onEnd_update (m mo : String → Except String String)
    (t t2 : GoTime) (rid : String) (ce : Option String) (c : Ctx) (i i2 : RunInfo)
    (inp out errS sv os : String) (h1 : m inp = .ok sv) (h2 : mo out = .ok os) :
    publishesAndFinalizes m mo t t2 rid ce c i i2 inp out errS os := by
  have hstate := onStart_fst_state m t rid ce c i inp sv h1
  refine ⟨hstate, ?_, ?_, ?_⟩
  · rw [onStart_some_eq]
    simp only [h1]
    simp [createdRuns]
  · simp [onEnd, hstate, h2]
  · simp [onError, hstate]
/-- Witness for C4 at concrete inputs. -/
theorem onStart_publish_onEnd_update_witness :
    publishesAndFinalizes Except.ok Except.ok {} {} "r" none {} {} {}
      "x" "y" "boom" "y" :=
  onStart_publish_onEnd_update Except.ok Except.ok {} {} "r" none {} {} {}
    "x" "y" "boom" "x" "y" rfl rfl
/-- C5 (code bug evaluation): started under a parent whose dotted order is
`P`, the current revision synchronously publishes the composed dotted order
`P.<timestamp>Z<runID>` and its background task attempts exactly one
CreateRun whose input aggregates all three chunks; the legacy revision
publishes `ParentDottedOrder = ""` — the captured local is still the zero
value at return, because the dotted order is only computed inside the
background goroutine. -/
theorem streamInput_legacy_unpublished_dotted_order :
    (onStartWithStreamInput (fun l => .ok (String.join l)) ⟨2025, 1, 1, 0, 0, 0, 0⟩
        "r" { state := some { traceID := "T", parentRunID := "p", parentDottedOrder := "P" } }
        (some {}) { chunks := ["a", "b", "c"], terminal := none }).1.state =
      some { traceID := "T", parentRunID := "r",
             parentDottedOrder := "P.20250101T000000000000Zr" } ∧
    ((onStartWithStreamInput (fun l => .ok (String.join l)) ⟨2025, 1, 1, 0, 0, 0, 0⟩
        "r" { state := some { traceID := "T", parentRunID := "p", parentDottedOrder := "P" } }
        (some {}) { chunks := ["a", "b", "c"], terminal := none }).2.creates).map Run.inputs =
      [[("stream_inputs", "abc")]] ∧
    (onStartWithStreamInputLegacy (fun l => .ok (String.join l)) ⟨2025, 1, 1, 0, 0, 0, 0⟩
        ⟨2025, 1, 1, 0, 0, 0, 0⟩ "r"
        { state := some { traceID := "T", parentRunID := "p", parentDottedOrder := "P" } }
        (some {}) { chunks := ["a", "b", "c"], terminal := none }).1.state =
      some { traceID := "T", parentRunID := "r", parentDottedOrder := "" } ∧
    ("" : String) ≠ "P.20250101T000000000000Zr" := by
  refine ⟨by decide, by decide, by decide, by decide⟩
/-- C6 counterexample: a streaming-input span whose sequence delivers one
chunk and then a receive error still attempts exactly one CreateRun — the
Go loop breaks out on the error and falls through to the aggregation and
the CreateRun call — where the claim requires zero. -/
theorem streamInput_error_still_creates :
    ((onStartWithStreamInput (fun l => .ok (String.join l)) ⟨2025, 1, 1, 0, 0, 0, 0⟩
        "r" {} (some {}) { chunks := ["c1"], terminal := some "recv failure" }).2.creates).length
      = 1 ∧
    (onStartWithStreamInput (fun l => .ok (String.join l)) ⟨2025, 1, 1, 0, 0, 0, 0⟩
        "r" {} (some {}) { chunks := ["c1"], terminal := some "recv failure" }).2.closed
      = true := by
  refine ⟨by decide, by decide⟩
/-- C6 as amended: when the input sequence yields an error before
end-of-stream, the error is logged and the drain stops there, but the create
is not abandoned: the background task still attempts exactly one CreateRun
carrying the aggregate of the chunks received before the error (zero only
when extracting the input from those chunks fails), and the stream resource
is closed on that exit path as on every other. -/
theorem streamInput_error_partial_create
    (extract : List String → Except String String) (t : GoTime) (rid : String)
    (c : Ctx) (i : RunInfo) (chunks : List String) (e : String) :
    ((onStartWithStreamInput extract t rid c (some i)
        { chunks := chunks, terminal := some e }).2.creates).map Run.inputs =
      (match extract chunks with
        | .ok msg => [[("stream_inputs", msg)]]
        | .error _ => []) ∧
    (onStartWithStreamInput extract t rid c (some i)
        { chunks := chunks, terminal := some e }).2.closed = true := by
  unfold onStartWithStreamInput
  rcases hx : extract chunks with err | msg <;> simp [hx]
/-- C7 counterexample: both revisions of `FlowTrace.StartSpan` return the
sink's CreateRun failure to the caller — the caller receives an error and no
derived context, not the log-and-continue behaviour the claim asserts for
every span-start entry point. -/
theorem flowStartSpan_propagates_sink_error :
    (FlowTrace.StartSpan "r" {} (some "boom") {} "n" "chain" none).2 = .error "boom" ∧
    (FlowTrace.StartSpanV2 "r" {} (some "boom") {} "n" none).2 = .error "boom" :=
  ⟨rfl, rfl⟩
/-- C7 as amended: when CreateRun fails during span start, OnStart logs and
continues — its caller still receives the derived context carrying the new
trace state and the minted run id, identical to the success case — but
FlowTrace.StartSpan (both revisions) instead propagates the sink error to
its caller and returns no derived context. -/
theorem sink_failure_continues_onStart_only (m : String → Except String String)
    (t : GoTime) (rid e : String) (c : Ctx) (i : RunInfo)
    (inp nm ty sv : String) (st? : Option LangsmithState) (h : m inp = .ok sv) :
    sinkFailurePolicy m t rid e c i inp nm ty st? := by
  refine ⟨rfl, ?_, ?_, ?_⟩
  · exact onStart_fst_state m t rid (some e) c i inp sv h
  · unfold FlowTrace.StartSpan
    rfl
  · unfold FlowTrace.StartSpanV2
    rfl
/-- Witness for C7 at concrete inputs. -/
theorem sink_failure_continues_onStart_only_witness :
    sinkFailurePolicy Except.ok {} "r" "boom" {} {} "x" "n" "chain" none :=
  sink_failure_continues_onStart_only Except.ok {} "r" "boom" {} {} "x" "n"
    "chain" "x" none rfl
/-- C8: for every context, `StringToSpan (SpanToString ctx)` reproduces the
trace state carried by the context exactly and reports no error; a context
carrying no state serializes to the empty string, and the empty string
deserializes to absent state with no error. -/
theorem spanToString_stringToSpan_roundtrip (ctx : Ctx) :
    StringToSpan (SpanToString ctx) = (ctx.state, none) ∧
    SpanToString { opts := ctx.opts, state := none } = "" ∧
    StringToSpan "" = (none, none) := by
  refine ⟨?_, rfl, rfl⟩
  rcases hs : ctx.state with _ | st
  · simp [SpanToString, GetState, hs, StringToSpan]
  · simp [SpanToString, GetState, hs, StringToSpan, marshalState_ne_empty st,
      unmarshal_marshal st]
/-- C9: given a null span descriptor (nil RunInfo), OnStart, OnEnd and
OnError return the input context unchanged and attempt zero sink calls. -/
theorem nil_runInfo_noop (m : String → Except String String) (t : GoTime)
    (rid : String) (ce : Option String) (c : Ctx) (inp out err : String) :
    onStart m t rid ce c none inp = (c, []) ∧
    onEnd m t c none out = (c, []) ∧
    onError t c none err = (c, []) :=
  ⟨rfl, rfl, rfl⟩
/-- C10 counterexample: an input whose serialization fails makes OnStart
skip the span entirely — no CreateRun is attempted and no new span state is
published (the context only gains the lazily initialised inherited state,
with an empty parent run id) — rather than proceeding without the field; an
output whose serialization fails makes OnEnd skip its UpdateRun. -/
theorem marshal_failure_skips_span :
    onStart (fun _ => .error "enc") {} "r" none {} (some {}) "x" =
      ({ state := some {} }, []) ∧
    onEnd (fun _ => .error "enc") {}
      ({ state := some { parentRunID := "p" } } : Ctx) (some {}) "y" =
      ({ state := some { parentRunID := "p" } }, []) :=
  ⟨rfl, rfl⟩
/-- C10 as amended: if the input or output payload cannot be serialized, the
encoding error is logged and the operation is skipped — OnStart issues no
CreateRun and publishes no new span state, OnEnd issues no UpdateRun — and
the failure is never propagated to the traced business logic. -/
theorem marshal_failure_skip (m mo : String → Except String String) (t : GoTime)
    (rid : String) (ce : Option String) (c : Ctx) (i : RunInfo)
    (inp out e1 e2 : String) (h1 : m inp = .error e1) (h2 : mo out = .error e2) :
    marshalFailurePolicy m mo t rid ce c i inp out := by
  constructor
  · rw [onStart_some_eq]
    simp only [h1]
  · unfold onEnd
    rcases hs : c.state with _ | st
    · simp [hs]
    · simp [hs, h2]
/-- Witness for C10 at concrete inputs. -/
theorem marshal_failure_skip_witness :
    marshalFailurePolicy (fun _ => .error "enc") (fun _ => .error "enc") {}
      "r" none {} {} "x" "y" :=
  marshal_failure_skip (fun _ => .error "enc") (fun _ => .error "enc") {}
    "r" none {} {} "x" "y" "enc" "enc" rfl rfl
end EinoLangsmith
